import Mathlib

/-!
Verification model of the Confluence local-sync engine
(`sync_to_confluence.py`).  The Python module is shallowly embedded: every
dict-shaped payload becomes a structure, the four persisted state files
become explicit values threaded through the functions, and the remote
HTTP API is an environment of call outcomes.  The functions below follow
the source line by line; comments cite the Python they translate.
-/

set_option maxRecDepth 4000

/-- Association list model of a Python `dict` with string keys: lookup of
the first matching key (dict keys are unique; on lists built by `aset`
they stay unique). -/
def alookup {α : Type} (m : List (String × α)) (k : String) : Option α :=
  (m.find? (fun p => p.1 = k)).map (fun p => p.2)

/-- Model of `d[k] = v` on a Python dict: replace the value at an existing
key in place (keeping its position, as dicts preserve insertion order),
otherwise append the new key at the end. -/
def aset {α : Type} (m : List (String × α)) (k : String) (v : α) : List (String × α) :=
  if (m.find? (fun p => p.1 = k)).isSome then
    m.map (fun p => if p.1 = k then (k, v) else p)
  else
    m ++ [(k, v)]

/-- Model of `del d[k]` on a Python dict. -/
def aerase {α : Type} (m : List (String × α)) (k : String) : List (String × α) :=
  m.filter (fun p => p.1 ≠ k)

/-- Model of `s.add(x)` on a Python set (represented as a list). -/
def setAdd (s : List String) (x : String) : List String :=
  if s.contains x then s else s ++ [x]

/-- Model of `s.remove(x)` on a Python set: the element is gone afterwards. -/
def setRemove (s : List String) (x : String) : List String :=
  s.filter (fun y => y ≠ x)

/-- Python truthiness of an optional string (`None` and the empty string
are falsy), used for `a or b` chains and `if page_id:` tests. -/
def truthy : Option String → Option String
  | some s => if s = "" then none else some s
  | none => none

/-- Body payload as stored under `body['storage']` in the remote page
JSON; `value` is optional because the source reads it with
`.get('value', '')`. -/
structure StorageBody where
  value : Option String
deriving Repr, DecidableEq

/-- Free-form `body` dict of a document payload.  A remote page carries
`body['storage']['value']`; a file written by `save_content` instead
carries `body['representation']` and `body['value']`. -/
structure Body where
  storage : Option StorageBody
  representation : Option String
  value : Option String
deriving Repr, DecidableEq

/-- Empty body dict. -/
def Body.empty : Body := ⟨none, none, none⟩

/-- Document payload: the dict fields that `save_content`
(sync_to_confluence.py lines 896-947) persists, plus `body`.  The remote
`version` dict is abstracted to its `number`. -/
structure Content where
  id : Option String
  title : Option String
  type : Option String
  status : Option String
  body : Option Body
  version : Option Nat
  createdAt : Option String
  authorId : Option String
  lastOwnerId : Option String
  position : Option Nat
deriving Repr, DecidableEq

/-- Content value with every field absent, for building examples. -/
def Content.empty : Content :=
  ⟨none, none, none, none, none, none, none, none, none, none⟩

/-- Model of `content.get('body', {}).get('storage', {}).get('value', '')`
as used by `update_page` (line 257) and `create_page` (line 349). -/
def bodyStorageValue (c : Content) : String :=
  match c.body with
  | none => ""
  | some b =>
    match b.storage with
    | none => ""
    | some sb => sb.value.getD ""

/-- Filename stem derivation actually used by `save_content` (line 905):
`content.get('title', 'untitled').lower().replace(' ', '_')`, modelled
character-wise for ASCII (`lower()` leaves the space character alone). -/
def saveStem (title : String) : String :=
  String.mk (title.data.map (fun c => if c = ' ' then '_' else c.toLower))

/-- Helper of `_sanitize_filename`: lower-case alphanumeric characters and
turn everything else into a dash
(`"".join(c.lower() if c.isalnum() else '-' for c in title)`, line 876). -/
def sanitizeDashes (title : String) : String :=
  String.mk (title.data.map (fun c => if c.isAlphanum then c.toLower else '-'))

/-- Model of `LocalContentManager._sanitize_filename` (lines 865-879):
dash out non-alphanumerics, collapse dash runs
(`'-'.join(filter(None, safe_name.split('-')))`), truncate to 100
characters (`[:100]`).  Implemented on character lists so that it
evaluates by kernel reduction. -/
def sanitize_filename (title : String) : String :=
  let safe := (sanitizeDashes title).data
  let parts := (safe.splitOnP (fun c => c = '-')).filter (fun s => s ≠ [])
  String.mk ((List.intercalate ['-'] parts).take 100)

/-- State of one persisted backing file: absent, present but unparseable,
or present with parsed value. -/
inductive FileData (α : Type) where
  | missing : FileData α
  | corrupt : FileData α
  | parsed : α → FileData α
deriving Repr, DecidableEq

/-- Parsed shape of `.failed_attachments`: filename to list of failure
timestamps.  ISO timestamps are modelled as integer seconds. -/
abbrev FailMap : Type := List (String × List Int)

/-- Day window used by the failure memory: `timedelta(hours=24)` in
seconds. -/
def dayWindow : Int := 86400

/-- Model of `ConfluenceAPI._should_skip_attachment` (lines 685-704).
A missing file returns `False`; a JSON error is caught and returns
`False`; otherwise the attachment is skipped when it has at least 3
recorded failures and the last one (`failures[-1]`, safe because the
length guard makes the list nonempty; `getLastD` matches it there) is
less than 24 hours old. -/
def should_skip_attachment (file : FileData FailMap) (filename : String) (now : Int) : Bool :=
  match file with
  | .missing => false
  | .corrupt => false
  | .parsed failedAttachments =>
    match alookup failedAttachments filename with
    | none => false
    | some failures =>
      if 3 ≤ failures.length then
        decide (now - failures.getLastD 0 < dayWindow)
      else false

/-- Model of `ConfluenceAPI._mark_failed_attachment` (lines 706-730): load
the file (missing means start from `{}`; a JSON error is caught, logged,
and nothing is written, so a corrupt file stays as it is), append the
current timestamp for `filename`, then keep only that filename's entries
younger than 24 hours and write the dict back.  The several `datetime.now()`
calls of the source are modelled as the single instant `now`. -/
def mark_failed_attachment (file : FileData FailMap) (filename : String) (now : Int) :
    FileData FailMap :=
  match file with
  | .corrupt => .corrupt
  | .missing =>
    .parsed (aset [] filename (([] ++ [now]).filter (fun ts => now - ts < dayWindow)))
  | .parsed failedAttachments =>
    let old := (alookup failedAttachments filename).getD []
    let pruned := (old ++ [now]).filter (fun ts => now - ts < dayWindow)
    .parsed (aset failedAttachments filename pruned)

/-- Model of `ConfluenceAPI._clear_failed_attachment` (lines 732-749):
missing file is a no-op, a JSON error is caught so a corrupt file stays,
otherwise delete the filename's entry and write back. -/
def clear_failed_attachment (file : FileData FailMap) (filename : String) :
    FileData FailMap :=
  match file with
  | .missing => .missing
  | .corrupt => .corrupt
  | .parsed failedAttachments => .parsed (aerase failedAttachments filename)

/-- Timestamps recorded for a filename in the failure file ([] when the
file is missing or unparseable). -/
def storedFailures (file : FileData FailMap) (filename : String) : List Int :=
  match file with
  | .parsed failedAttachments => (alookup failedAttachments filename).getD []
  | _ => []

/-- Error raised by the API layer (`ConfluenceAPIError`).  Only the
`status_code` field is observable to the callers modelled here; when the
source passes something that is not an HTTP status (or nothing) as the
second constructor argument, the model uses `none`, which agrees with
every `== 404` test in the source. -/
structure ApiError where
  statusCode : Option Int
deriving Repr, DecidableEq

/-- Sync cache parsed shape: filename stem to fingerprint. -/
abbrev Cache : Type := List (String × String)

/-- Model of `ContentSyncer._load_cache` (lines 995-1000): a missing file
yields `{}`, but there is no exception handler, so `json.load` on a
corrupt file raises to the caller. -/
def load_cache (file : FileData Cache) : Except ApiError Cache :=
  match file with
  | .missing => .ok []
  | .corrupt => .error ⟨none⟩
  | .parsed c => .ok c

/-- Model of `ContentSyncer._load_deleted_pages` (lines 1007-1015): any
failure (missing or corrupt file) is caught and yields the empty set. -/
def load_deleted_pages (file : FileData (List String)) : List String :=
  match file with
  | .parsed s => s
  | _ => []

/-- Model of `LocalContentManager._load_id_mapping` (lines 847-855): any
failure is caught and yields the empty mapping. -/
def load_id_mapping (file : FileData (List (String × String))) : List (String × String) :=
  match file with
  | .parsed m => m
  | _ => []

/-- Load sequence performed at the top of `push_to_confluence`
(lines 1073-1074): `_load_cache` runs unguarded, so its exception
propagates out of `push`. -/
def push_load_state (cacheFile : FileData Cache) (deletedFile : FileData (List String)) :
    Except ApiError (Cache × List String) := do
  let cache ← load_cache cacheFile
  .ok (cache, load_deleted_pages deletedFile)

/-- Serialization of an optional string field, part of the `json.dump`
model. -/
def serOptStr : Option String → String
  | none => "null"
  | some s => "str(" ++ s ++ ")"

/-- Serialization of an optional natural field. -/
def serOptNat : Option Nat → String
  | none => "null"
  | some n => "nat(" ++ toString n ++ ")"

/-- Serialization of an optional body dict. -/
def serBody : Option Body → String
  | none => "null"
  | some b =>
    "body(" ++ serOptStr (b.storage.map (fun sb => sb.value.getD "")) ++ ","
      ++ serOptStr b.representation ++ "," ++ serOptStr b.value ++ ")"

/-- Model of `json.dump` on the payload written by `save_content`: a
deterministic rendering of the record field by field.  The MD5 digest the
source takes of the written bytes (`_get_file_hash`, lines 960-967) is
idealized as collision-free, so the bytes themselves stand in for their
digest throughout. -/
def serialize (c : Content) : String :=
  "rec(" ++ serOptStr c.id ++ "," ++ serOptStr c.title ++ "," ++ serOptStr c.type ++ ","
    ++ serOptStr c.status ++ "," ++ serBody c.body ++ "," ++ serOptNat c.version ++ ","
    ++ serOptStr c.createdAt ++ "," ++ serOptStr c.authorId ++ ","
    ++ serOptStr c.lastOwnerId ++ "," ++ serOptNat c.position ++ ")"

/-- Body normalization performed by `save_content` (lines 912-920): when
the incoming `body` dict has a `storage` key the stored body is
`{'representation': 'storage', 'value': body['storage'].get('value', '')}`,
otherwise it is the empty dict. -/
def normalizeBody : Option Body → Body
  | some b =>
    match b.storage with
    | some sb => ⟨none, some "storage", some (sb.value.getD "")⟩
    | none => Body.empty
  | none => Body.empty

/-- Payload assembled by `save_content` (lines 922-934): the listed keys
are copied from the incoming content, with the body normalized. -/
def normalizeContent (c : Content) : Content :=
  { id := c.id, title := c.title, type := c.type, status := c.status
    body := some (normalizeBody c.body), version := c.version
    createdAt := c.createdAt, authorId := c.authorId
    lastOwnerId := c.lastOwnerId, position := c.position }

/-- One file of the local content directory: its stem (filename without
`.json`), the document it parses to, and its raw bytes (which also serve
as its idealized digest). -/
structure DiskFile where
  stem : String
  content : Content
  bytes : String
deriving Repr, DecidableEq

/-- Write (create or overwrite) one file of the content directory. -/
def diskSet (disk : List DiskFile) (stem : String) (c : Content) (b : String) :
    List DiskFile :=
  if (disk.find? (fun f => f.stem = stem)).isSome then
    disk.map (fun f => if f.stem = stem then ⟨stem, c, b⟩ else f)
  else
    disk ++ [⟨stem, c, b⟩]

/-- Model of `LocalContentManager.save_content` (lines 896-947): derive
the stem from the title, normalize the payload, and write first the
companion `{title}_mapping.json` file and then the main `{title}.json`
file, both with the same serialized payload.  The `page_id` parameter of
the source is used only for logging.  Note that the function does not
touch the ID mapping. -/
def save_content (c : Content) (disk : List DiskFile) : List DiskFile :=
  let stem := saveStem (c.title.getD "untitled")
  let payload := normalizeContent c
  let bytes := serialize payload
  let disk1 := diskSet disk (stem ++ "_mapping") payload bytes
  diskSet disk1 stem payload bytes

/-- Model of `LocalContentManager.get_local_content` (lines 881-894):
enumerate the content directory and return stem, parsed document and
file digest per file.  Files that fail to parse are skipped by the
source; the model keeps every disk file parseable. -/
def get_local_content (disk : List DiskFile) : List (String × Content × String) :=
  disk.map (fun f => (f.stem, f.content, f.bytes))

/-- Recursion core of `removeSubstringAll`, structurally recursive on a
fuel that starts at the list length (enough to process every
character). -/
def removeSubGo (pat : List Char) : Nat → List Char → List Char
  | _, [] => []
  | 0, l => l
  | fuel + 1, c :: cs =>
    if pat.isPrefixOf (c :: cs) then
      removeSubGo pat fuel (List.drop (pat.length - 1) cs)
    else
      c :: removeSubGo pat fuel cs

/-- Model of Python `s.replace(pat, '')` for a non-empty pattern: delete
every occurrence of `pat`, scanning left to right without overlap. -/
def removeSubstringAll (pat : List Char) (l : List Char) : List Char :=
  removeSubGo pat l.length l

/-- Model of `LocalContentManager.get_page_id_from_filename`
(lines 949-958): strip `.json` (`filename.replace('.json', '')`), then
return the first mapping key whose value is the filename. -/
def get_page_id_from_filename (idMap : List (String × String)) (filename : String) :
    Option String :=
  let f := String.mk (removeSubstringAll ".json".data filename.data)
  (idMap.find? (fun p => p.2 = f)).map (fun p => p.1)

/-- Remote page fields read by `update_page` from `get_page_by_id`:
`version.number` (with the source default of 1 applied at extraction),
`status` and `spaceId` (both read with `.get`, hence optional). -/
structure RemotePage where
  version : Nat
  status : Option String
  spaceId : Option String
deriving Repr, DecidableEq

/-- One PUT payload submitted by `update_page`.  The body `value`, the
`title` and the version `number` are the fields the source fills in; the
version message string is elided. -/
structure PutRequest where
  reqStatus : String
  title : String
  bodyValue : String
  versionNumber : Nat
  spaceId : Option String
deriving Repr, DecidableEq

/-- Remote behavior observed by one `update_page` call: the initial
`get_page_by_id` result, the configured target space (`get_space_id`,
whose own failure mode is elided), the outcome of the draft-conversion
PUT, the page returned by the `i`-th polling `get_page_by_id`, and the
outcome of the final PUT. -/
structure UpdateEnv where
  currentPage : Except ApiError RemotePage
  newSpaceId : String
  draftPutResult : Except ApiError Unit
  pollPage : Nat → Except ApiError RemotePage
  finalPutResult : Except ApiError Unit

/-- Timeout error raised when the draft transition is not observed:
`ConfluenceAPIError(..., status_code=400)` (lines 295-298). -/
def draftTimeoutError : ApiError := ⟨some 400⟩

/-- Recursion core of the draft polling loop, structurally recursive on
the fuel `maxChecks - i` so that it evaluates by kernel reduction.  Fuel
zero means the `while draft_check_count < max_draft_checks` condition is
false. -/
def draftCheckGo (pollPage : Nat → Except ApiError RemotePage) (maxChecks : Nat) :
    Nat → Nat → Except ApiError Unit
  | _, 0 => .ok ()
  | i, fuel + 1 =>
    match pollPage i with
    | .error e => .error e
    | .ok page =>
      if page.status = some "draft" then .ok ()
      else if i + 1 = maxChecks then .error draftTimeoutError
      else draftCheckGo pollPage maxChecks (i + 1) fuel

/-- Model of the draft polling loop of `update_page` (lines 285-298):
starting from `draft_check_count = i`, while the count is below
`maxChecks` wait one second, re-fetch the page, stop successfully when
its status reads `draft`, and raise after `maxChecks` unsuccessful
checks.  A polling fetch failure propagates (`get_page_by_id` raises
`ConfluenceAPIError`, which the surrounding `except` clause for
`requests` exceptions does not catch). -/
def draftCheckLoop (pollPage : Nat → Except ApiError RemotePage) (maxChecks i : Nat) :
    Except ApiError Unit :=
  draftCheckGo pollPage maxChecks i (maxChecks - i)

/-- Model of `ConfluenceAPI.update_page` (lines 224-322).  Returns the
call outcome together with the list of PUT payloads submitted, in order.
The version number of the base payload is `current_version + 1`
(line 260).  For a cross-space move of a non-draft page the source does
`draft_data = update_data.copy()` — a shallow copy, so
`draft_data['version']` is the same dict object as
`update_data['version']` and the assignment
`draft_data['version']['number'] = 1` (line 277) also changes the version
number that the final PUT later submits; the model reflects that shared
mutation with `basePutMutated`. -/
def update_page (env : UpdateEnv) (content : Content) :
    Except ApiError Unit × List PutRequest :=
  match env.currentPage with
  | .error e => (.error e, [])
  | .ok page =>
    let currentVersion := page.version
    let basePut : PutRequest :=
      { reqStatus := "current", title := content.title.getD ""
        bodyValue := bodyStorageValue content
        versionNumber := currentVersion + 1, spaceId := none }
    let isSpaceMove := page.spaceId ≠ some env.newSpaceId
    if isSpaceMove then
      if page.status ≠ some "draft" then
        let draftPut := { basePut with reqStatus := "draft", versionNumber := 1 }
        let basePutMutated := { basePut with versionNumber := 1 }
        match env.draftPutResult with
        | .error e => (.error e, [draftPut])
        | .ok _ =>
          match draftCheckLoop env.pollPage 3 0 with
          | .error e => (.error e, [draftPut])
          | .ok _ =>
            let finalPut := { basePutMutated with spaceId := some env.newSpaceId }
            (env.finalPutResult, [draftPut, finalPut])
      else
        let finalPut := { basePut with spaceId := some env.newSpaceId }
        (env.finalPutResult, [finalPut])
    else
      (env.finalPutResult, [basePut])

/-- Shape of `create_page`'s JSON result as observed by
`push_to_confluence`: only `result.get('id')` is read (the source's
`result and result.get('id')` truthiness test is subsumed by the
optional id). -/
structure CreateResult where
  id : Option String
deriving Repr, DecidableEq

/-- Remote call outcomes available to one `push_to_confluence` run.
`deleteOutcome` models `ConfluenceAPI.delete_page` (a remote 404 is
already mapped to success inside it, lines 628-630); `createOutcome`
models `ConfluenceAPI.create_page`; `updateOutcome` models the overall
outcome of `ConfluenceAPI.update_page`, whose internal request protocol
is modelled separately by `update_page`. -/
structure PushEnv where
  deleteOutcome : String → Except ApiError Unit
  createOutcome : Content → Except ApiError CreateResult
  updateOutcome : String → Content → Except ApiError Unit

/-- Remote mutation trace entry of a push run. -/
inductive RemoteCall where
  | delete : String → RemoteCall
  | create : Content → RemoteCall
  | update : String → Content → RemoteCall
deriving Repr, DecidableEq

/-- State carried by a push run: the content directory, the loaded sync
cache, the loaded tombstone set, and the in-memory
`LocalContentManager.id_to_filename` mapping.  `push_to_confluence`
persists `cache` and `deletedPages` when it finishes (lines 1151-1152)
but never calls `_save_id_mapping`, so `idToFilename` mutations stay in
memory only. -/
structure PushState where
  disk : List DiskFile
  cache : Cache
  deletedPages : List String
  idToFilename : List (String × String)
deriving Repr, DecidableEq

/-- Resolution of a record's remote ID (lines 1102-1105):
`content['content'].get('id') or self.local.get_page_id_from_filename(filename)`,
with Python truthiness on both operands. -/
def resolvePageId (c : Content) (idMap : List (String × String)) (filename : String) :
    Option String :=
  match truthy c.id with
  | some i => some i
  | none => truthy (get_page_id_from_filename idMap filename)

/-- One step of the deleted-files loop of `push_to_confluence`
(lines 1082-1093): resolve the remote ID from the mapping; when found,
delete the page remotely, and on success add the ID to the tombstone set
and drop it from the in-memory mapping (`if page_id in ...: del ...`;
dropping an absent key is a no-op, so the guard is implicit in
`aerase`).  A `ConfluenceAPIError` is logged and the loop continues.
The sync-cache entry of the deleted file is not removed. -/
def pushDeletionStep (env : PushEnv) (acc : PushState × List RemoteCall)
    (filename : String) : PushState × List RemoteCall :=
  let s := acc.1
  match truthy (get_page_id_from_filename s.idToFilename filename) with
  | none => acc
  | some pageId =>
    let trace := acc.2 ++ [.delete pageId]
    match env.deleteOutcome pageId with
    | .ok _ =>
      ({ s with deletedPages := setAdd s.deletedPages pageId
                idToFilename := aerase s.idToFilename pageId }, trace)
    | .error _ => (s, trace)

/-- Deletion phase of `push_to_confluence` (lines 1076-1093): the
filenames present in the cache but absent from the local enumeration.
The source iterates a Python set difference whose order is unspecified;
the model uses cache order. -/
def pushDeletions (env : PushEnv) (localStems : List String) (st : PushState) :
    PushState × List RemoteCall :=
  let cachedFiles := st.cache.map (fun p => p.1)
  let deletedFiles := cachedFiles.filter (fun f => ¬ localStems.contains f)
  deletedFiles.foldl (pushDeletionStep env) (st, [])

/-- Shared `except ConfluenceAPIError` handler of the create/update block
(lines 1129-1145): on a 404 with a truthy resolved ID, fall back to
create; on create success store the returned ID into the record, re-save
it locally and clear a stale tombstone; on any other failure `continue`
without updating the cache. -/
def pushFallback (env : PushEnv) (s : PushState) (trace : List RemoteCall)
    (filename : String) (c : Content) (currentHash : String)
    (pageId : Option String) (e : ApiError) : PushState × List RemoteCall :=
  match pageId with
  | some pid =>
    if e.statusCode = some 404 then
      let trace1 := trace ++ [.create c]
      match env.createOutcome c with
      | .ok result =>
        let s1 :=
          match result.id with
          | some newId =>
            { s with disk := save_content { c with id := some newId } s.disk
                     deletedPages := if s.deletedPages.contains pid then
                         setRemove s.deletedPages pid
                       else s.deletedPages }
          | none => s
        ({ s1 with cache := aset s1.cache filename currentHash }, trace1)
      | .error _ => (s, trace1)
    else (s, trace)
  | none => (s, trace)

/-- One step of the create/update loop of `push_to_confluence`
(lines 1096-1148) for the record `(filename, content, hash)`.  Unchanged
records (hash equal to the cache entry) are skipped.  Otherwise the
resolved ID decides: tombstoned ID → re-create (lines 1109-1116);
live ID → update (lines 1118-1120); no ID → create (lines 1122-1127).
Error handling goes through `pushFallback`.  After any successfully
handled record the cache entry is set to the enumerated hash — note that
a create re-saves the record on disk *after* that hash was computed. -/
def pushRecord (env : PushEnv) (acc : PushState × List RemoteCall)
    (entry : String × Content × String) : PushState × List RemoteCall :=
  let s := acc.1
  let trace := acc.2
  let filename := entry.1
  let c := entry.2.1
  let currentHash := entry.2.2
  if alookup s.cache filename = some currentHash then (s, trace)
  else
    match resolvePageId c s.idToFilename filename with
    | some pid =>
      if s.deletedPages.contains pid then
        let trace1 := trace ++ [.create c]
        match env.createOutcome c with
        | .ok result =>
          let s1 :=
            match result.id with
            | some newId =>
              { s with disk := save_content { c with id := some newId } s.disk
                       deletedPages := setRemove s.deletedPages pid }
            | none => s
          ({ s1 with cache := aset s1.cache filename currentHash }, trace1)
        | .error e => pushFallback env s trace1 filename c currentHash (some pid) e
      else
        let trace1 := trace ++ [.update pid c]
        match env.updateOutcome pid c with
        | .ok _ => ({ s with cache := aset s.cache filename currentHash }, trace1)
        | .error e => pushFallback env s trace1 filename c currentHash (some pid) e
    | none =>
      let trace1 := trace ++ [.create c]
      match env.createOutcome c with
      | .ok result =>
        let s1 :=
          match result.id with
          | some newId => { s with disk := save_content { c with id := some newId } s.disk }
          | none => s
        ({ s1 with cache := aset s1.cache filename currentHash }, trace1)
      | .error e => pushFallback env s trace1 filename c currentHash none e

/-- Model of `ContentSyncer.push_to_confluence` (lines 1069-1153) after
its load phase (see `push_load_state`): enumerate the local content,
handle deletions, then handle changed records; the returned state's
`cache` and `deletedPages` are the values the source persists at the end
of the run.  The second component is the trace of remote mutation calls
issued, in order. -/
def push (env : PushEnv) (st : PushState) : PushState × List RemoteCall :=
  let localContent := get_local_content st.disk
  let localStems := localContent.map (fun p => p.1)
  let after1 := pushDeletions env localStems st
  localContent.foldl (pushRecord env) after1

/-- Remote page summary as used by the pull loop: only `page['id']` is
read (the title appears in logging alone). -/
structure PageSummary where
  id : String
deriving Repr, DecidableEq

/-- Attachment metadata as used by `_download_attachment`: only
`attachment.get('title', '')`. -/
structure AttachmentMeta where
  title : String
deriving Repr, DecidableEq

/-- Remote behavior observed by one `pull_from_confluence` run:
`get_space_content`, per-page `get_page_by_id`, per-page
`get_attachments`, and the per-attachment byte download
(`download_attachment` after its URL/retry machinery, which either
returns bytes or raises after exhausting every candidate).  `now` is the
instant used by the failure-memory timestamp comparisons. -/
structure PullEnv where
  spaceContent : Except ApiError (List PageSummary)
  fullPage : String → Except ApiError Content
  attachmentsOf : String → Except ApiError (List AttachmentMeta)
  downloadOutcome : String → AttachmentMeta → Except ApiError String
  now : Int

/-- State carried by a pull run: the content directory, the loaded
tombstone set (pull only reads it), the failure-memory file, and the
attachment files written (keyed `pageId/filename`). -/
structure PullState where
  disk : List DiskFile
  deletedPages : List String
  failedAttachments : FileData FailMap
  attachmentFiles : List (String × String)
deriving Repr, DecidableEq

/-- Model of `ConfluenceAPI._download_attachment` (lines 637-683), the
per-attachment step of pull: skip attachments with no filename, skip
those the failure memory flags, otherwise download; a success writes the
bytes and clears the failure entry (the best-effort metadata sidecar
write does not touch any modelled state and is elided), a failure of any
kind records a failure timestamp.  The function never raises. -/
def download_attachment_step (env : PullEnv) (pageId : String) (att : AttachmentMeta)
    (st : PullState) : PullState :=
  let filename := att.title
  if filename = "" then st
  else if should_skip_attachment st.failedAttachments filename env.now then st
  else
    match env.downloadOutcome pageId att with
    | .ok bytes =>
      { st with attachmentFiles := aset st.attachmentFiles (pageId ++ "/" ++ filename) bytes
                failedAttachments := clear_failed_attachment st.failedAttachments filename }
    | .error _ =>
      { st with failedAttachments := mark_failed_attachment st.failedAttachments filename env.now }

/-- One page of the pull loop (lines 1038-1065): pages in the tombstone
set are skipped; a failing `get_page_by_id` is logged and the page
skipped; otherwise the page is written through `save_content` and its
attachments are fetched — a failing `get_attachments` is logged and the
loop continues with the next page (the page itself stays saved).  The
second accumulator component lists the IDs of the pages saved locally. -/
def pullPageStep (env : PullEnv) (deletedPages : List String)
    (acc : PullState × List String) (page : PageSummary) : PullState × List String :=
  let st := acc.1
  let saved := acc.2
  if deletedPages.contains page.id then acc
  else
    match env.fullPage page.id with
    | .error _ => acc
    | .ok fullPage =>
      let st1 := { st with disk := save_content fullPage st.disk }
      match env.attachmentsOf page.id with
      | .error _ => (st1, saved ++ [page.id])
      | .ok atts =>
        (atts.foldl (fun s att => download_attachment_step env page.id att s) st1,
          saved ++ [page.id])

/-- Model of `ContentSyncer.pull_from_confluence` (lines 1025-1067): a
failing `get_space_content` is logged and the run returns; otherwise
every listed page is processed in order with per-item error handling,
and the run always returns normally.  The second component lists the IDs
of the pages written locally. -/
def pull (env : PullEnv) (st : PullState) : PullState × List String :=
  match env.spaceContent with
  | .error _ => (st, [])
  | .ok pages => pages.foldl (pullPageStep env st.deletedPages) (st, [])

/-! Concrete inputs used by the counterexample and evaluation theorems. -/

/-- Content record of a brand-new local file, before any sync. -/
def exNewRecord : Content := { Content.empty with title := some "New Page" }

/-- Push environment where every remote call succeeds and creates return
ID `123`. -/
def exCreateEnv : PushEnv :=
  { deleteOutcome := fun _ => .ok ()
    createOutcome := fun _ => .ok ⟨some "123"⟩
    updateOutcome := fun _ _ => .ok () }

/-- Start state: a single user-written local file with no embedded ID,
empty cache, no tombstones, empty mapping. -/
def exFreshState : PushState :=
  { disk := [⟨"new_page", exNewRecord, "userbytes"⟩]
    cache := [], deletedPages := [], idToFilename := [] }

/-- State persisting after the first push of `exFreshState`. -/
def exAfterFirstPush : PushState := (push exCreateEnv exFreshState).1

/-- Remote page in space `old` with status `current` and version 3. -/
def exPageCurrent : RemotePage := { version := 3, status := some "current", spaceId := some "old" }

/-- Remote page in space `old` already in `draft` status, version 3. -/
def exPageDraft : RemotePage := { version := 3, status := some "draft", spaceId := some "old" }

/-- Update environment for a cross-space move of a `current` page whose
draft conversion and polling succeed. -/
def exUpdMove : UpdateEnv :=
  { currentPage := .ok exPageCurrent, newSpaceId := "new", draftPutResult := .ok ()
    pollPage := fun _ => .ok exPageDraft, finalPutResult := .ok () }

/-- Update environment for a cross-space move of a page already in
draft status. -/
def exUpdDraftAlready : UpdateEnv :=
  { currentPage := .ok exPageDraft, newSpaceId := "new", draftPutResult := .ok ()
    pollPage := fun _ => .ok exPageDraft, finalPutResult := .ok () }

/-- Update environment for an update within the page's current space. -/
def exUpdSame : UpdateEnv :=
  { currentPage := .ok exPageCurrent, newSpaceId := "old", draftPutResult := .ok ()
    pollPage := fun _ => .ok exPageDraft, finalPutResult := .ok () }

/-- Local record with embedded remote ID 1. -/
def exRecA : Content := { Content.empty with id := some "1", title := some "A" }

/-- Local record with embedded remote ID 2. -/
def exRecB : Content := { Content.empty with id := some "2", title := some "B" }

/-- Push environment where updating page 1 fails with a version conflict
(HTTP 409) and every other call succeeds. -/
def exConflictEnv : PushEnv :=
  { deleteOutcome := fun _ => .ok ()
    createOutcome := fun _ => .ok ⟨some "9"⟩
    updateOutcome := fun pid _ => if pid = "1" then .error ⟨some 409⟩ else .ok () }

/-- Two changed local records mapped to remote pages 1 and 2. -/
def exTwoFiles : PushState :=
  { disk := [⟨"a", exRecA, "ba"⟩, ⟨"b", exRecB, "bb"⟩]
    cache := [], deletedPages := [], idToFilename := [] }

/-- Skip decision as the specification words it: prune the recorded
failure timestamps older than 24 hours, then skip exactly when at least
3 remain in the window.  Stated only to compare against the source's
`should_skip_attachment`. -/
def shouldSkipSpec (file : FileData FailMap) (filename : String) (now : Int) : Bool :=
  3 ≤ ((storedFailures file filename).filter (fun ts => now - ts < dayWindow)).length

/-- Failure file holding three failures for `big.png`: two at time 0 and
one 20 hours later. -/
def exFailFile : FileData FailMap := .parsed [("big.png", [0, 0, 72000])]

/-- Update environment for a cross-space move whose polling never
observes the draft status. -/
def exUpdMoveStuck : UpdateEnv :=
  { currentPage := .ok exPageCurrent, newSpaceId := "new", draftPutResult := .ok ()
    pollPage := fun _ => .ok exPageCurrent, finalPutResult := .ok () }

/-- Pull environment listing pages A, B and C, where fetching B's full
payload fails and every attachment listing fails. -/
def exPullEnv : PullEnv :=
  { spaceContent := .ok [⟨"A"⟩, ⟨"B"⟩, ⟨"C"⟩]
    fullPage := fun pid => if pid = "B" then .error ⟨none⟩ else .ok exNewRecord
    attachmentsOf := fun _ => .error ⟨none⟩
    downloadOutcome := fun _ _ => .ok "bytes"
    now := 0 }

/-- Pull state where page A is tombstoned. -/
def exPullState : PullState :=
  { disk := [], deletedPages := ["A"], failedAttachments := .missing, attachmentFiles := [] }

/-- Local record, resolved ID 77, recreated after page 77 was deleted. -/
def exTombRec : Content := { Content.empty with id := some "77", title := some "My page" }

/-- Push state for the tombstone-resurrection scenario: one fresh local
file whose embedded ID 77 is tombstoned. -/
def exResurrectState : PushState :=
  { disk := [⟨"my_page", exTombRec, "newbytes"⟩]
    cache := [], deletedPages := ["77"], idToFilename := [] }

/-- Push state with one changed record (embedded ID 1) already cached
under a stale fingerprint. -/
def exSteadyState : PushState :=
  { disk := [⟨"a", exRecA, "ba"⟩]
    cache := [("a", "old")], deletedPages := [], idToFilename := [] }

/-- Push state with one changed record (embedded ID 1) under a stale
fingerprint plus one stale cache entry whose file is gone locally but
is still mapped to remote page 9, so a push must both delete and
update. -/
def exSteadyDelState : PushState :=
  { disk := [⟨"a", exRecA, "ba"⟩]
    cache := [("a", "old"), ("gone", "h2")]
    deletedPages := [], idToFilename := [("9", "gone")] }

/-- C1 (code bug): on a push-driven update that resolves a live remote
ID, the source fetches the current version and builds the payload with
`current_version + 1` (here 4), and a version-conflict rejection is a
hard failure that lets the batch continue — but for a cross-space move
of a non-draft page the shallow `update_data.copy()` lets the draft
step's `draft_data['version']['number'] = 1` clobber the shared version
dict, so the final PUT submits version 1 instead of `currentVersion + 1`.
Conjuncts: (move of a `current` page) both submitted PUTs carry version
1; (already-draft move and same-space update) the single PUT carries
version 4 as specified; (conflict handling) a 409 on page 1 leaves the
batch running — page 2 is still updated — and only page 2's fingerprint
enters the cache, so page 1 is retried on the next run. -/
theorem C1_final_put_version_clobbered :
    ((update_page exUpdMove exNewRecord).2.map (fun r => r.versionNumber) = [1, 1])
  ∧ ((update_page exUpdDraftAlready exNewRecord).2.map (fun r => r.versionNumber) = [4])
  ∧ ((update_page exUpdSame exNewRecord).2.map (fun r => r.versionNumber) = [4])
  ∧ ((push exConflictEnv exTwoFiles).2 = [.update "1" exRecA, .update "2" exRecB])
  ∧ ((push exConflictEnv exTwoFiles).1.cache = [("b", "bb")]) := by
  refine ⟨rfl, rfl, rfl, rfl, rfl⟩

/-- C2 counterexample: pushing a single brand-new file issues one create,
but the successful create re-saves the file with the returned ID after
its pre-create fingerprint went into the cache (and adds a companion
`_mapping.json` file that is itself enumerated), so a second push with
no user changes issues two remote update calls instead of zero.  The
conjuncts exhibit the whole failure: run 1 issues exactly the create;
afterwards the cache still holds the pre-create fingerprint while
neither enumerated file carries those bytes any more — refuting the
claim's premise that every fingerprint matches its cache entry after
run 1 — and run 2's calls are exactly two updates of the created page. -/
theorem C2_counterexample_second_push_calls :
    (push exCreateEnv exFreshState).2 = [.create exNewRecord]
  ∧ alookup exAfterFirstPush.cache "new_page" = some "userbytes"
  ∧ exAfterFirstPush.disk.map (fun f => f.stem) = ["new_page", "new_page_mapping"]
  ∧ exAfterFirstPush.disk.all (fun f => f.bytes ≠ "userbytes") = true
  ∧ (push exCreateEnv exAfterFirstPush).2
      = [.update "123" (normalizeContent { exNewRecord with id := some "123" }),
         .update "123" (normalizeContent { exNewRecord with id := some "123" })]
  ∧ (push exCreateEnv exAfterFirstPush).2 ≠ [] := by
  refine ⟨rfl, rfl, rfl, by decide, by decide, by decide⟩

/-- C4 counterexample: the sync-cache load has no exception handler
(`_load_cache`, lines 995-1000), so a corrupt `sync_cache.json` does not
yield the empty structure — the `json.load` error propagates to the
caller of `push`. -/
theorem C4_counterexample_corrupt_cache_raises :
    (push_load_state FileData.corrupt (FileData.parsed [])).isOk = false := by
  decide

/-- C4 amended: three of the four persisted structures (tombstone set,
ID mapping, failure memory) tolerate both a missing and a corrupt
backing file by returning the empty structure, and the sync cache
tolerates a missing file — but a corrupt sync-cache file raises. -/
theorem C4_amended_load_tolerance :
    load_cache .missing = .ok []
  ∧ (load_cache .corrupt).isOk = false
  ∧ load_deleted_pages .missing = []
  ∧ load_deleted_pages .corrupt = []
  ∧ load_id_mapping .missing = []
  ∧ load_id_mapping .corrupt = []
  ∧ (∀ fn now, should_skip_attachment .missing fn now = false)
  ∧ (∀ fn now, should_skip_attachment .corrupt fn now = false) := by
  exact ⟨rfl, rfl, rfl, rfl, rfl, rfl, fun _ _ => rfl, fun _ _ => rfl⟩

/-- C5 counterexample: after a successful create during push, the
returned ID is stored into the re-saved local record, but no entry is
ever added to the ID mapping — `save_content` and `push_to_confluence`
never write `id_to_filename`, so it stays empty. -/
theorem C5_counterexample_mapping_not_populated :
    (push exCreateEnv exFreshState).2 = [.create exNewRecord]
  ∧ (push exCreateEnv exFreshState).1.disk.map (fun f => (f.stem, f.content.id))
      = [("new_page", some "123"), ("new_page_mapping", some "123")]
  ∧ (push exCreateEnv exFreshState).1.idToFilename = [] := by
  refine ⟨rfl, rfl, rfl⟩

/-- C6 counterexample: queried 26 hours after the first failures (time
93600), only one of the recorded failures is inside the trailing
24-hour window, yet `_should_skip_attachment` still skips the
attachment: it counts the whole stored list (3 entries) and looks only
at the age of the last entry, pruning nothing. -/
theorem C6_counterexample_skip_with_one_in_window :
    should_skip_attachment exFailFile "big.png" 93600 = true
  ∧ ((storedFailures exFailFile "big.png").filter
      (fun ts => 93600 - ts < dayWindow)).length = 1
  ∧ shouldSkipSpec exFailFile "big.png" 93600 = false := by
  decide

/-- C9 counterexample: the filename derivation that `save_content`
actually uses keeps punctuation and does not collapse runs — the title
`My  Page!` becomes `my__page!` (two adjacent separators, `!` kept) —
whereas the collapse-and-truncate derivation described by the claim
(implemented by the never-called `_sanitize_filename`) yields `my-page`. -/
theorem C9_counterexample_no_collapse :
    saveStem "My  Page!" = "my__page!"
  ∧ sanitize_filename "My  Page!" = "my-page"
  ∧ saveStem "My  Page!" ≠ sanitize_filename "My  Page!" := by
  refine ⟨rfl, by decide, by decide⟩

/-! Helper lemmas about the dict and set models. -/

theorem find?_update_self {α : Type} (m : List (String × α)) (k : String) (v : α)
    (h : (m.find? (fun p => p.1 = k)).isSome) :
    (m.map (fun p => if p.1 = k then (k, v) else p)).find? (fun p => p.1 = k)
      = some (k, v) := by
  induction m with
  | nil => simp at h
  | cons p m ih =>
    by_cases hp : p.1 = k
    · simp [if_pos hp]
    · rw [List.map_cons, if_neg hp, List.find?_cons_of_neg _ (by simp [hp])]
      apply ih
      rcases List.find?_isSome.mp h with ⟨x, hx, hpx⟩
      rcases List.mem_cons.mp hx with rfl | hxm
      · exact absurd (by simpa using hpx) hp
      · exact List.find?_isSome.mpr ⟨x, hxm, hpx⟩

theorem find?_update_ne {α : Type} (m : List (String × α)) (k k' : String) (v : α)
    (h : k' ≠ k) :
    (m.map (fun p => if p.1 = k then (k, v) else p)).find? (fun p => p.1 = k')
      = m.find? (fun p => p.1 = k') := by
  induction m with
  | nil => simp
  | cons p m ih =>
    by_cases hp : p.1 = k
    · rw [List.map_cons, if_pos hp, List.find?_cons_of_neg _ (by simp [Ne.symm h]),
        List.find?_cons_of_neg _ (by simp [hp, Ne.symm h])]
      exact ih
    · rw [List.map_cons, if_neg hp]
      by_cases hp' : p.1 = k'
      · rw [List.find?_cons_of_pos _ (by simp [hp']), List.find?_cons_of_pos _ (by simp [hp'])]
      · rw [List.find?_cons_of_neg _ (by simp [hp']), List.find?_cons_of_neg _ (by simp [hp'])]
        exact ih

theorem alookup_aset_self {α : Type} (m : List (String × α)) (k : String) (v : α) :
    alookup (aset m k v) k = some v := by
  unfold aset
  split
  next h =>
    simp only [alookup, find?_update_self m k v h, Option.map_some']
  next h =>
    have hnone : m.find? (fun p => p.1 = k) = none := by
      cases hq : m.find? (fun p => p.1 = k) with
      | none => rfl
      | some x => exact absurd (by simp [hq]) h
    simp [alookup, List.find?_append, hnone]

theorem alookup_aset_ne {α : Type} (m : List (String × α)) (k k' : String) (v : α)
    (h : k' ≠ k) : alookup (aset m k v) k' = alookup m k' := by
  unfold aset
  split
  next _ =>
    simp only [alookup, find?_update_ne m k k' v h]
  next _ =>
    have hlast : List.find? (fun p => p.1 = k') [(k, v)] = none := by
      simp [Ne.symm h]
    simp [alookup, List.find?_append, hlast]

theorem setAdd_contains_self (s : List String) (x : String) :
    (setAdd s x).contains x = true := by
  unfold setAdd
  split
  next h => exact h
  next h => simp [List.contains_eq_any_beq, List.any_append]

theorem setRemove_not_mem (s : List String) (x : String) : x ∉ setRemove s x := by
  intro hx
  have := List.of_mem_filter hx
  simp at this

theorem setRemove_not_contains (s : List String) (x : String) :
    (setRemove s x).contains x = false := by
  rw [← Bool.not_eq_true]
  intro hc
  exact setRemove_not_mem s x (List.elem_iff.mp hc)

theorem foldl_preserve {σ α : Type} (step : σ → α → σ) (P : σ → Prop)
    (h : ∀ s a, P s → P (step s a)) :
    ∀ (l : List α) (s : σ), P s → P (l.foldl step s)
  | [], _, hs => hs
  | a :: l, s, hs => foldl_preserve step P h l (step s a) (h s a hs)

/-- C9 amended: the filename derivation that `save_content` uses is
deterministic and character-wise — it preserves the title's length (so
it does not truncate) and distributes over concatenation (so the same
title always yields the same filename, stable under composition); it
lower-cases and replaces spaces by underscores but neither collapses
non-alphanumeric runs nor bounds the length (see the counterexample). -/
theorem C9_amended_saveStem_charwise (t t₁ t₂ : String) :
    (saveStem t).length = t.length
  ∧ saveStem (t₁ ++ t₂) = saveStem t₁ ++ saveStem t₂ := by
  constructor
  · show (t.data.map _).length = t.data.length
    exact List.length_map _ _
  · show String.mk ((t₁ ++ t₂).data.map _) = String.mk _ ++ String.mk _
    simp only [String.data_append, List.map_append]
    rfl

/-- C10: when `_mark_failed_attachment` completes at time `now` (and the
previously stored timestamps do not lie in the future), every timestamp
persisted for that filename lies within the 24 hours preceding `now` —
the recording operation itself prunes the filename's entries older than
the window before writing. -/
theorem C10_mark_prunes_to_window (file : FileData FailMap) (fn : String) (now : Int)
    (hpast : ∀ ts ∈ storedFailures file fn, ts ≤ now) :
    ∀ ts ∈ storedFailures (mark_failed_attachment file fn now) fn,
      now - ts < dayWindow ∧ ts ≤ now := by
  intro ts hts
  have key : ∀ (old : List Int), (∀ x ∈ old, x ≤ now) →
      ts ∈ (old ++ [now]).filter (fun x => now - x < dayWindow) →
      now - ts < dayWindow ∧ ts ≤ now := by
    intro old hold hmem
    rw [List.mem_filter] at hmem
    obtain ⟨hmem, hpred⟩ := hmem
    refine ⟨by simpa using hpred, ?_⟩
    rcases List.mem_append.mp hmem with hl | hr
    · exact hold ts hl
    · simp at hr
      omega
  cases file with
  | corrupt => simp [mark_failed_attachment, storedFailures] at hts
  | missing =>
    simp only [mark_failed_attachment, storedFailures, alookup_aset_self,
      Option.getD_some] at hts
    exact key [] (by intro x hx; simp at hx) hts
  | parsed fa =>
    simp only [mark_failed_attachment, storedFailures, alookup_aset_self,
      Option.getD_some] at hts
    exact key ((alookup fa fn).getD []) (by simpa [storedFailures] using hpast) hts

/-- C10 witness: recording a failure for `a.png` at time 90000 on top of
stored failures at 0 and 50000 prunes the stale timestamp 0, leaving
exactly the entries inside the window; the kept timestamp 50000 lies
within the 24 hours preceding 90000. -/
theorem C10_witness :
    storedFailures (mark_failed_attachment (.parsed [("a.png", [0, 50000])]) "a.png" 90000)
      "a.png" = [50000, 90000]
  ∧ ((90000 : Int) - 50000 < dayWindow ∧ (50000 : Int) ≤ 90000) :=
  ⟨by decide,
   C10_mark_prunes_to_window (.parsed [("a.png", [0, 50000])]) "a.png" 90000 (by decide)
     50000 (by decide)⟩

/-- C6 amended: `_should_skip_attachment` does not prune — it skips
exactly when the stored list for the filename has at least 3 entries and
the most recent one is younger than 24 hours.  Consequently (first
conjunct) an attachment whose stored failures all lie inside the window
and number at least 3 is skipped, and (second conjunct) it is attempted
again once every stored failure — equivalently the most recent one —
has aged out of the window; but, per the counterexample, it can stay
skipped with fewer than 3 failures inside the window. -/
theorem C6_amended_skip_characterization (fa : FailMap) (fn : String) (now : Int)
    (failures : List Int) (hlook : alookup fa fn = some failures) :
    (3 ≤ failures.length → (∀ ts ∈ failures, now - ts < dayWindow) →
        should_skip_attachment (.parsed fa) fn now = true)
  ∧ ((∀ ts ∈ failures, dayWindow ≤ now - ts) →
        should_skip_attachment (.parsed fa) fn now = false) := by
  constructor
  · intro hlen hwin
    have hne : failures ≠ [] := by
      intro h
      rw [h] at hlen
      simp at hlen
    rcases (List.eq_nil_or_concat failures) with h | ⟨l', a, rfl⟩
    · exact absurd h hne
    · simp only [should_skip_attachment, hlook, if_pos hlen, List.getLastD_concat]
      simpa using hwin a (by simp)
  · intro hout
    by_cases hlen : 3 ≤ failures.length
    · have hne : failures ≠ [] := by
        intro h
        rw [h] at hlen
        simp at hlen
      rcases (List.eq_nil_or_concat failures) with h | ⟨l', a, rfl⟩
      · exact absurd h hne
      · simp only [should_skip_attachment, hlook, if_pos hlen, List.getLastD_concat]
        have := hout a (by simp)
        simp
        omega
    · simp [should_skip_attachment, hlook, hlen]

/-- C6 witness: with stored failures at 0, 1 and 2, the attachment is
skipped when queried at time 10 and attempted again at time 100000
(all failures aged out). -/
theorem C6_witness :
    should_skip_attachment (.parsed [("a.png", [0, 1, 2])]) "a.png" 10 = true
  ∧ should_skip_attachment (.parsed [("a.png", [0, 1, 2])]) "a.png" 100000 = false :=
  ⟨(C6_amended_skip_characterization [("a.png", [0, 1, 2])] "a.png" 10 [0, 1, 2] rfl).1
      (by decide) (by decide),
   (C6_amended_skip_characterization [("a.png", [0, 1, 2])] "a.png" 100000 [0, 1, 2] rfl).2
      (by decide)⟩

/-! Helper lemmas about the draft polling loop used by `update_page`. -/

theorem draftCheckLoop3_ok (pollPage : Nat → Except ApiError RemotePage) (i : Nat)
    (hi : i < 3) (pi : RemotePage) (hok : pollPage i = .ok pi)
    (hdraft : pi.status = some "draft")
    (hbefore : ∀ j, j < i → ∃ pj, pollPage j = .ok pj ∧ pj.status ≠ some "draft") :
    draftCheckLoop pollPage 3 0 = .ok () := by
  interval_cases i
  · simp [draftCheckLoop, draftCheckGo, hok, hdraft]
  · obtain ⟨p0, h0, s0⟩ := hbefore 0 (by norm_num)
    simp [draftCheckLoop, draftCheckGo, h0, s0, hok, hdraft]
  · obtain ⟨p0, h0, s0⟩ := hbefore 0 (by norm_num)
    obtain ⟨p1, h1, s1⟩ := hbefore 1 (by norm_num)
    simp [draftCheckLoop, draftCheckGo, h0, s0, h1, s1, hok, hdraft]

theorem draftCheckLoop3_timeout (pollPage : Nat → Except ApiError RemotePage)
    (h : ∀ j, j < 3 → ∃ pj, pollPage j = .ok pj ∧ pj.status ≠ some "draft") :
    draftCheckLoop pollPage 3 0 = .error draftTimeoutError := by
  obtain ⟨p0, h0, s0⟩ := h 0 (by norm_num)
  obtain ⟨p1, h1, s1⟩ := h 1 (by norm_num)
  obtain ⟨p2, h2, s2⟩ := h 2 (by norm_num)
  simp [draftCheckLoop, draftCheckGo, h0, s0, h1, s1, h2, s2]

/-- C7: the container-move protocol of `update_page`.  With the current
page fetched successfully: (1) a same-container update submits exactly
one PUT, carrying no container ID; (2) a cross-container update of a
page already in draft status skips the draft conversion and submits one
PUT carrying the new container ID; (3) a cross-container update of a
non-draft page whose draft PUT succeeds and whose polling observes the
draft status at some attempt `i < 3` submits exactly two PUTs — first
the draft conversion, then the move carrying the new container ID; (4)
if none of the 3 bounded polling attempts observes the draft status, the
call is a hard failure (the bounded-attempt timeout error) and no PUT
carrying the new container ID is ever submitted.  The fixed 1-second
delay between attempts is wall-clock behavior outside the embedding. -/
theorem C7_two_phase_container_move (env : UpdateEnv) (c : Content) (page : RemotePage)
    (hok : env.currentPage = .ok page) :
    (page.spaceId = some env.newSpaceId →
        (update_page env c).2.length = 1
      ∧ ∀ r ∈ (update_page env c).2, r.spaceId = none)
  ∧ (page.spaceId ≠ some env.newSpaceId → page.status = some "draft" →
        (update_page env c).2.length = 1
      ∧ ∀ r ∈ (update_page env c).2,
          r.spaceId = some env.newSpaceId ∧ r.reqStatus = "current")
  ∧ (page.spaceId ≠ some env.newSpaceId → page.status ≠ some "draft" →
      env.draftPutResult = .ok () →
      ∀ i, i < 3 → ∀ pi, env.pollPage i = .ok pi → pi.status = some "draft" →
      (∀ j, j < i → ∃ pj, env.pollPage j = .ok pj ∧ pj.status ≠ some "draft") →
        ∃ r₁ r₂, (update_page env c).2 = [r₁, r₂]
          ∧ r₁.reqStatus = "draft" ∧ r₁.spaceId = none
          ∧ r₂.spaceId = some env.newSpaceId
          ∧ (update_page env c).1 = env.finalPutResult)
  ∧ (page.spaceId ≠ some env.newSpaceId → page.status ≠ some "draft" →
      env.draftPutResult = .ok () →
      (∀ j, j < 3 → ∃ pj, env.pollPage j = .ok pj ∧ pj.status ≠ some "draft") →
        (update_page env c).1 = .error draftTimeoutError
      ∧ (update_page env c).2.length = 1
      ∧ ∀ r ∈ (update_page env c).2, r.spaceId = none) := by
  refine ⟨?_, ?_, ?_, ?_⟩
  · intro hsame
    have hmove : ¬ page.spaceId ≠ some env.newSpaceId := by simp [hsame]
    simp [update_page, hok, hmove]
  · intro hmove hdraft
    simp [update_page, hok, if_pos hmove, hdraft]
  · intro hmove hnodraft hput i hi pi hpi hpis hbefore
    have hloop := draftCheckLoop3_ok env.pollPage i hi pi hpi hpis hbefore
    refine ⟨⟨"draft", c.title.getD "", bodyStorageValue c, 1, none⟩,
      ⟨"current", c.title.getD "", bodyStorageValue c, 1, some env.newSpaceId⟩,
      ?_, rfl, rfl, rfl, ?_⟩ <;>
      simp [update_page, hok, if_pos hmove, hnodraft, hput, hloop]
  · intro hmove hnodraft hput hnever
    have hloop := draftCheckLoop3_timeout env.pollPage hnever
    simp [update_page, hok, if_pos hmove, hnodraft, hput, hloop]

/-- C7 witness: concrete instances of all four branches — the
same-space update submits one PUT without a container ID; the
cross-space move of a `current` page with polling success at attempt 0
submits the draft PUT then the move PUT; the stuck-poll move fails with
the timeout error after one draft PUT. -/
theorem C7_witness :
    ((update_page exUpdSame exNewRecord).2.length = 1
      ∧ ∀ r ∈ (update_page exUpdSame exNewRecord).2, r.spaceId = none)
  ∧ (∃ r₁ r₂, (update_page exUpdMove exNewRecord).2 = [r₁, r₂]
      ∧ r₁.reqStatus = "draft" ∧ r₁.spaceId = none
      ∧ r₂.spaceId = some "new"
      ∧ (update_page exUpdMove exNewRecord).1 = exUpdMove.finalPutResult)
  ∧ ((update_page exUpdMoveStuck exNewRecord).1 = .error draftTimeoutError
      ∧ (update_page exUpdMoveStuck exNewRecord).2.length = 1) := by
  refine ⟨(C7_two_phase_container_move exUpdSame exNewRecord exPageCurrent rfl).1 rfl,
    ?_, ?_⟩
  · exact (C7_two_phase_container_move exUpdMove exNewRecord exPageCurrent rfl).2.2.1
      (by decide) (by decide) rfl 0 (by norm_num) exPageDraft rfl rfl
      (fun j hj => absurd hj (by omega))
  · have h := (C7_two_phase_container_move exUpdMoveStuck exNewRecord exPageCurrent rfl).2.2.2
      (by decide) (by decide) rfl
      (fun j _ => ⟨exPageCurrent, rfl, by decide⟩)
    exact ⟨h.1, h.2.1⟩

/-- Saved-page characterization of the pull loop: the pages written
locally are exactly the listed pages that are neither tombstoned nor
failing their full-payload fetch, independent of any attachment
failures. -/
theorem pullFold_saved (env : PullEnv) (deleted : List String) (pages : List PageSummary) :
    ∀ acc : PullState × List String,
      (pages.foldl (pullPageStep env deleted) acc).2
        = acc.2 ++ (pages.filter
            (fun p => !deleted.contains p.id && (env.fullPage p.id).isOk)).map
            (fun p => p.id) := by
  induction pages with
  | nil => intro acc; simp
  | cons page pages ih =>
    intro acc
    rw [List.foldl_cons, ih]
    by_cases hd : page.id ∈ deleted
    · simp [pullPageStep, hd]
    · cases hfp : env.fullPage page.id with
      | error e =>
        simp [pullPageStep, hd, hfp, List.filter_cons, Except.isOk, Except.toBool]
      | ok fp =>
        cases hat : env.attachmentsOf page.id with
        | error e =>
          simp [pullPageStep, hd, hfp, hat, List.filter_cons, Except.isOk, Except.toBool]
        | ok atts =>
          simp [pullPageStep, hd, hfp, hat, List.filter_cons, Except.isOk, Except.toBool]

/-- C8: per-item failure isolation of `pull_from_confluence`.  When the
space listing succeeds, the locally saved pages are exactly the listed
pages that are not tombstoned and whose full-payload fetch succeeds —
so one document's fetch failure skips only that document, an
attachments-listing failure never unsaves or blocks documents, and the
loop always processes the whole list (the model's `pull` returns a
value on every input, matching the source's catch-log-continue
structure). -/
theorem C8_pull_partial_failures (env : PullEnv) (st : PullState)
    (pages : List PageSummary) (hs : env.spaceContent = .ok pages) :
    (pull env st).2 = (pages.filter
        (fun p => !st.deletedPages.contains p.id && (env.fullPage p.id).isOk)).map
        (fun p => p.id)
  ∧ ∀ x, (env.fullPage x).isOk = false → x ∉ (pull env st).2 := by
  have hchar : (pull env st).2 = (pages.filter
      (fun p => !st.deletedPages.contains p.id && (env.fullPage p.id).isOk)).map
      (fun p => p.id) := by
    rw [pull]
    rw [hs]
    simpa using pullFold_saved env st.deletedPages pages (st, [])
  refine ⟨hchar, ?_⟩
  intro x hx hmem
  rw [hchar] at hmem
  rcases List.mem_map.mp hmem with ⟨p, hp, rfl⟩
  have := List.of_mem_filter hp
  rw [hx] at this
  simp at this

/-- C8 witness: pulling pages A, B, C where A is tombstoned and B's
full-payload fetch fails saves exactly page C, and B is not saved. -/
theorem C8_witness :
    (pull exPullEnv exPullState).2 = ["C"]
  ∧ "B" ∉ (pull exPullEnv exPullState).2 := by
  have h := C8_pull_partial_failures exPullEnv exPullState [⟨"A"⟩, ⟨"B"⟩, ⟨"C"⟩] rfl
  exact ⟨by rw [h.1]; rfl, h.2 "B" rfl⟩

/-- C3: tombstone behavior across runs.  (1) A pull never recreates a
local file for a tombstoned remote ID: an ID in the loaded tombstone set
is never among the pages pull saves.  (2) When a push finds a cached
filename gone locally, resolves its remote ID from the mapping and the
remote delete succeeds, the ID enters the tombstone set (and leaves the
in-memory mapping) — the state a later run loads.  (3) When a fresh
local file whose resolved ID is tombstoned is pushed, the push issues
exactly one create — never an update against the tombstoned ID — and a
successful create removes the tombstone. -/
theorem C3_tombstone_resurrection :
    (∀ (env : PullEnv) (st : PullState) (R : String),
        R ∈ st.deletedPages → R ∉ (pull env st).2)
  ∧ (∀ (env : PushEnv) (F hsh R : String) (dp : List String),
        R ≠ "" →
        String.mk (removeSubstringAll ".json".data F.data) = F →
        env.deleteOutcome R = .ok () →
          push env ⟨[], [(F, hsh)], dp, [(R, F)]⟩
            = (⟨[], [(F, hsh)], setAdd dp R, []⟩, [.delete R])
        ∧ (push env ⟨[], [(F, hsh)], dp, [(R, F)]⟩).1.deletedPages.contains R = true)
  ∧ (∀ (env : PushEnv) (F : String) (c : Content) (b R N : String)
        (dp : List String) (idm : List (String × String)),
        c.id = some R → R ≠ "" → R ∈ dp →
        env.createOutcome c = .ok ⟨some N⟩ →
          (push env ⟨[⟨F, c, b⟩], [], dp, idm⟩).2 = [.create c]
        ∧ (push env ⟨[⟨F, c, b⟩], [], dp, idm⟩).1.deletedPages.contains R = false) := by
  refine ⟨?_, ?_, ?_⟩
  · intro env st R hR hmem
    cases hs : env.spaceContent with
    | error e =>
      rw [pull, hs] at hmem
      simp at hmem
    | ok pages =>
      rw [pull, hs, pullFold_saved env st.deletedPages pages (st, [])] at hmem
      simp only [List.nil_append] at hmem
      rcases List.mem_map.mp hmem with ⟨p, hpf, hpid⟩
      have hq := List.of_mem_filter hpf
      rw [hpid] at hq
      simp at hq
      exact absurd hR hq.1
  · intro env F hsh R dp hR hF hdel
    have hget : get_page_id_from_filename [(R, F)] F = some R := by
      simp [get_page_id_from_filename, hF]
    have htruthy : truthy (get_page_id_from_filename [(R, F)] F) = some R := by
      rw [hget]
      simp [truthy, hR]
    have hpush : push env ⟨[], [(F, hsh)], dp, [(R, F)]⟩
        = (⟨[], [(F, hsh)], setAdd dp R, []⟩, [.delete R]) := by
      simp [push, get_local_content, pushDeletions, pushDeletionStep, htruthy, hdel, aerase]
    rw [hpush]
    exact ⟨rfl, setAdd_contains_self dp R⟩
  · intro env F c b R N dp idm hcid hR hdp hco
    have hcont : dp.contains R = true := List.elem_iff.mpr hdp
    have hres : resolvePageId c idm F = some R := by
      simp [resolvePageId, hcid, truthy, hR]
    have hpush : push env ⟨[⟨F, c, b⟩], [], dp, idm⟩
        = ({ disk := save_content { c with id := some N } [⟨F, c, b⟩]
             cache := [(F, b)], deletedPages := setRemove dp R, idToFilename := idm },
           [.create c]) := by
      simp [push, get_local_content, pushDeletions, pushRecord, hres, hcont, hdp, hco,
        aset, alookup]
    rw [hpush]
    exact ⟨rfl, setRemove_not_contains dp R⟩

/-- C3 witness: with concrete states — pulling with tombstone `A` never
saves `A`; pushing after the local file of mapped page 77 disappeared
tombstones 77; pushing a fresh local file whose embedded ID 77 is
tombstoned issues one create and drops the tombstone. -/
theorem C3_witness :
    "A" ∉ (pull exPullEnv exPullState).2
  ∧ (push exCreateEnv ⟨[], [("mypage", "h1")], [], [("77", "mypage")]⟩).1.deletedPages.contains
      "77" = true
  ∧ (push exCreateEnv exResurrectState).2 = [.create exTombRec]
  ∧ (push exCreateEnv exResurrectState).1.deletedPages.contains "77" = false := by
  have h1 := C3_tombstone_resurrection.1 exPullEnv exPullState "A" (by decide)
  have h2 := (C3_tombstone_resurrection.2.1 exCreateEnv "mypage" "h1" "77" []
    (by decide) (by decide) rfl).2
  have h3 := C3_tombstone_resurrection.2.2 exCreateEnv "my_page" exTombRec "newbytes"
    "77" "123" ["77"] [] rfl (by decide) (by decide) rfl
  exact ⟨h1, h2, h3.1, h3.2⟩

/-- Record step of push never touches the in-memory ID mapping. -/
theorem pushFallback_idMap (env : PushEnv) (s : PushState) (trace : List RemoteCall)
    (filename : String) (c : Content) (currentHash : String) (pageId : Option String)
    (e : ApiError) :
    (pushFallback env s trace filename c currentHash pageId e).1.idToFilename
      = s.idToFilename := by
  dsimp only [pushFallback]
  repeat' split
  all_goals rfl

theorem pushRecord_idMap (env : PushEnv) (acc : PushState × List RemoteCall)
    (entry : String × Content × String) :
    (pushRecord env acc entry).1.idToFilename = acc.1.idToFilename := by
  dsimp only [pushRecord]
  repeat' split
  all_goals first
    | rfl
    | apply pushFallback_idMap

/-- Deletion step of push only erases ID-mapping entries. -/
theorem pushDeletionStep_idMap_sub (env : PushEnv) (acc : PushState × List RemoteCall)
    (f : String) :
    ∀ p ∈ (pushDeletionStep env acc f).1.idToFilename, p ∈ acc.1.idToFilename := by
  intro p hp
  dsimp only [pushDeletionStep] at hp
  split at hp
  · exact hp
  · split at hp
    · simp only [aerase] at hp
      exact (List.mem_filter.mp hp).1
    · exact hp

/-- C5 amended: `push_to_confluence` never adds an entry to the ID
mapping — every mapping entry present after a run was already there
before it.  In particular a successful create stores the returned ID
only into the re-saved local record (see the counterexample), the
deletion phase removes entries from the in-memory mapping only (push
never calls `_save_id_mapping`, so no removal is persisted either), and
`save_content` — the only local write `pull` performs — takes no mapping
argument at all. -/
theorem C5_amended_push_never_adds_mapping (env : PushEnv) (st : PushState) :
    ∀ p ∈ (push env st).1.idToFilename, p ∈ st.idToFilename := by
  intro p hp
  simp only [push] at hp
  have h2 : ∀ (l : List (String × Content × String)) (acc : PushState × List RemoteCall),
      (l.foldl (pushRecord env) acc).1.idToFilename = acc.1.idToFilename := by
    intro l
    induction l with
    | nil => intro acc; rfl
    | cons e l ih =>
      intro acc
      rw [List.foldl_cons, ih, pushRecord_idMap]
  rw [h2] at hp
  have h1 : ∀ (files : List String) (acc : PushState × List RemoteCall),
      ∀ p ∈ (files.foldl (pushDeletionStep env) acc).1.idToFilename,
        p ∈ acc.1.idToFilename := by
    intro files
    induction files with
    | nil => intro acc p hp; exact hp
    | cons f files ih =>
      intro acc p hp
      rw [List.foldl_cons] at hp
      exact pushDeletionStep_idMap_sub env _ f p (ih _ p hp)
  exact h1 _ (st, []) p hp

/-- C5 amended witness: a push that does nothing keeps the lone mapping
entry, which was already present beforehand. -/
theorem C5_amended_witness :
    ("1", "a") ∈ (⟨[], [], [], [("1", "a")]⟩ : PushState).idToFilename :=
  C5_amended_push_never_adds_mapping exCreateEnv ⟨[], [], [], [("1", "a")]⟩
    ("1", "a") (by decide)

/-! Helper lemmas about reverse lookups in the ID mapping, used to prove
the push idempotence property.  They all assume the mapping is
bidirectional in the sense of the data model: no two entries share a
filename value. -/

theorem find?_value_aerase {m : List (String × String)}
    (hN : (m.map Prod.snd).Nodup) (k v : String) :
    (aerase m k).find? (fun p => p.2 = v) = none
  ∨ (aerase m k).find? (fun p => p.2 = v) = m.find? (fun p => p.2 = v) := by
  induction m with
  | nil => right; rfl
  | cons a m ih =>
    have hN' : (m.map Prod.snd).Nodup := (List.nodup_cons.mp hN).2
    have hnv : a.2 ∉ m.map Prod.snd := (List.nodup_cons.mp hN).1
    by_cases hv : a.2 = v
    · by_cases hk : a.1 = k
      · left
        rw [List.find?_eq_none]
        intro x hx
        have hxm : x ∈ aerase m k := by
          have : aerase (a :: m) k = aerase m k := by
            simp [aerase, List.filter_cons, hk]
          rw [this] at hx
          exact hx
        have hxmem : x ∈ m := List.mem_filter.mp hxm |>.1
        simp only [decide_eq_true_eq]
        intro hx2
        exact hnv (hv ▸ hx2 ▸ List.mem_map_of_mem Prod.snd hxmem)
      · right
        have : aerase (a :: m) k = a :: aerase m k := by
          simp [aerase, List.filter_cons, hk]
        rw [this, List.find?_cons_of_pos _ (by simp [hv]),
          List.find?_cons_of_pos _ (by simp [hv])]
    · by_cases hk : a.1 = k
      · have : aerase (a :: m) k = aerase m k := by
          simp [aerase, List.filter_cons, hk]
        rw [this, List.find?_cons_of_neg _ (by simp [hv])]
        exact ih hN'
      · have : aerase (a :: m) k = a :: aerase m k := by
          simp [aerase, List.filter_cons, hk]
        rw [this, List.find?_cons_of_neg _ (by simp [hv]),
          List.find?_cons_of_neg _ (by simp [hv])]
        exact ih hN'

theorem find?_value_aerase_found {m : List (String × String)}
    (hN : (m.map Prod.snd).Nodup) {v : String} {e : String × String}
    (hf : m.find? (fun p => p.2 = v) = some e) :
    (aerase m e.1).find? (fun p => p.2 = v) = none := by
  rw [List.find?_eq_none]
  intro x hx
  have hxm : x ∈ m := List.mem_filter.mp hx |>.1
  have hxk : x.1 ≠ e.1 := by
    have := List.mem_filter.mp hx |>.2
    simpa using this
  have hem : e ∈ m := List.mem_of_find?_eq_some hf
  have hev : e.2 = v := by simpa using List.find?_some hf
  simp only [decide_eq_true_eq]
  intro hxv
  exact hxk (congrArg Prod.fst
    (List.inj_on_of_nodup_map hN hxm hem (by rw [hxv, hev])))

theorem nodup_values_aerase {m : List (String × String)}
    (hN : (m.map Prod.snd).Nodup) (k : String) :
    ((aerase m k).map Prod.snd).Nodup :=
  hN.sublist ((List.filter_sublist m).map Prod.snd)

theorem tlookup_aerase_mono {m : List (String × String)}
    (hN : (m.map Prod.snd).Nodup) (k g : String) {pid : String}
    (h : truthy (get_page_id_from_filename (aerase m k) g) = some pid) :
    truthy (get_page_id_from_filename m g) = some pid := by
  dsimp only [get_page_id_from_filename] at h ⊢
  rcases find?_value_aerase hN k (String.mk (removeSubstringAll ".json".data g.data))
    with hc | hc
  · rw [hc] at h
    simp [truthy] at h
  · rw [hc] at h
    exact h

theorem tlookup_aerase_found {m : List (String × String)}
    (hN : (m.map Prod.snd).Nodup) {g pid : String}
    (h : truthy (get_page_id_from_filename m g) = some pid) :
    truthy (get_page_id_from_filename (aerase m pid) g) = none := by
  dsimp only [get_page_id_from_filename] at h ⊢
  cases hf : m.find? (fun p => p.2 = String.mk (removeSubstringAll ".json".data g.data)) with
  | none =>
    rw [hf] at h
    simp [truthy] at h
  | some e =>
    rw [hf] at h
    have he1 : e.1 = pid := by
      by_cases hz : e.1 = ""
      · simp [truthy, hz] at h
      · simpa [truthy, hz] using h
    rw [← he1, find?_value_aerase_found hN hf]
    simp [truthy]

theorem pushDeletionStep_cache (env : PushEnv) (acc : PushState × List RemoteCall)
    (f : String) : (pushDeletionStep env acc f).1.cache = acc.1.cache := by
  dsimp only [pushDeletionStep]
  repeat' split
  all_goals rfl

theorem pushDeletionStep_disk (env : PushEnv) (acc : PushState × List RemoteCall)
    (f : String) : (pushDeletionStep env acc f).1.disk = acc.1.disk := by
  dsimp only [pushDeletionStep]
  repeat' split
  all_goals rfl

theorem pushDeletionStep_idMap_cases (env : PushEnv) (acc : PushState × List RemoteCall)
    (f : String) :
    (pushDeletionStep env acc f).1.idToFilename = acc.1.idToFilename
  ∨ ∃ pid, truthy (get_page_id_from_filename acc.1.idToFilename f) = some pid
      ∧ (pushDeletionStep env acc f).1.idToFilename = aerase acc.1.idToFilename pid := by
  dsimp only [pushDeletionStep]
  cases htr : truthy (get_page_id_from_filename acc.1.idToFilename f) with
  | none => left; simp [htr]
  | some pid =>
    cases hdel : env.deleteOutcome pid with
    | ok u => right; exact ⟨pid, rfl, by simp [hdel]⟩
    | error e => left; simp [hdel]

theorem pushDeletionStep_mono (env : PushEnv) (acc : PushState × List RemoteCall)
    (f : String) (hN : (acc.1.idToFilename.map Prod.snd).Nodup) (g : String)
    {pid : String}
    (h : truthy (get_page_id_from_filename
        (pushDeletionStep env acc f).1.idToFilename g) = some pid) :
    truthy (get_page_id_from_filename acc.1.idToFilename g) = some pid := by
  rcases pushDeletionStep_idMap_cases env acc f with he | ⟨q, _, he⟩
  · rw [he] at h; exact h
  · rw [he] at h; exact tlookup_aerase_mono hN q g h

theorem pushDeletionStep_nodup (env : PushEnv) (acc : PushState × List RemoteCall)
    (f : String) (hN : (acc.1.idToFilename.map Prod.snd).Nodup) :
    (((pushDeletionStep env acc f).1.idToFilename).map Prod.snd).Nodup := by
  rcases pushDeletionStep_idMap_cases env acc f with he | ⟨q, _, he⟩
  · rw [he]; exact hN
  · rw [he]; exact nodup_values_aerase hN q

theorem pushDeletionStep_kill (env : PushEnv) (acc : PushState × List RemoteCall)
    (f : String) (hN : (acc.1.idToFilename.map Prod.snd).Nodup) {pid : String}
    (htr : truthy (get_page_id_from_filename acc.1.idToFilename f) = some pid)
    (hdel : env.deleteOutcome pid = .ok ()) :
    truthy (get_page_id_from_filename
      (pushDeletionStep env acc f).1.idToFilename f) = none := by
  have hstep : (pushDeletionStep env acc f).1.idToFilename
      = aerase acc.1.idToFilename pid := by
    dsimp only [pushDeletionStep]
    simp [htr, hdel]
  rw [hstep]
  exact tlookup_aerase_found hN htr

/-- Deletion-phase invariant of push: when every deletion the phase can
resolve succeeds remotely and the mapping is bidirectional, the phase
leaves cache and disk alone, keeps the mapping bidirectional, ends with
every processed filename unresolvable, and only ever shrinks what the
mapping resolves. -/
theorem pushDeletions_fold (env : PushEnv) :
    ∀ (files : List String) (acc : PushState × List RemoteCall),
      ((acc.1.idToFilename.map Prod.snd).Nodup) →
      (∀ f ∈ files, ∀ pid,
          truthy (get_page_id_from_filename acc.1.idToFilename f) = some pid →
          env.deleteOutcome pid = .ok ()) →
      (files.foldl (pushDeletionStep env) acc).1.cache = acc.1.cache
      ∧ (files.foldl (pushDeletionStep env) acc).1.disk = acc.1.disk
      ∧ (((files.foldl (pushDeletionStep env) acc).1.idToFilename).map Prod.snd).Nodup
      ∧ (∀ f ∈ files, truthy (get_page_id_from_filename
            (files.foldl (pushDeletionStep env) acc).1.idToFilename f) = none)
      ∧ (∀ g pid, truthy (get_page_id_from_filename
            (files.foldl (pushDeletionStep env) acc).1.idToFilename g) = some pid →
          truthy (get_page_id_from_filename acc.1.idToFilename g) = some pid) := by
  intro files
  induction files with
  | nil =>
    intro acc hN _
    exact ⟨rfl, rfl, hN, by intro f hf; simp at hf, by intro g pid h; exact h⟩
  | cons f rest ih =>
    intro acc hN hdel
    rw [List.foldl_cons]
    have hN' := pushDeletionStep_nodup env acc f hN
    have hrest := ih (pushDeletionStep env acc f) hN' (by
      intro f' hf' pid h
      exact hdel f' (List.mem_cons_of_mem f hf') pid
        (pushDeletionStep_mono env acc f hN f' h))
    obtain ⟨hc, hd, hn, hnone, hmono⟩ := hrest
    refine ⟨hc.trans (pushDeletionStep_cache env acc f),
      hd.trans (pushDeletionStep_disk env acc f), hn, ?_, ?_⟩
    · intro f' hf'
      rcases List.mem_cons.mp hf' with rfl | hf'
      · cases hcur : truthy (get_page_id_from_filename acc.1.idToFilename f') with
        | none =>
          cases hfin : truthy (get_page_id_from_filename
              ((rest.foldl (pushDeletionStep env) (pushDeletionStep env acc f')).1).idToFilename
              f') with
          | none => rfl
          | some pid =>
            exact absurd (pushDeletionStep_mono env acc f' hN f' (hmono f' pid hfin))
              (by simp [hcur])
        | some pid =>
          have hkill := pushDeletionStep_kill env acc f' hN hcur
            (hdel f' (List.mem_cons_self f' rest) pid hcur)
          cases hfin : truthy (get_page_id_from_filename
              ((rest.foldl (pushDeletionStep env) (pushDeletionStep env acc f')).1).idToFilename
              f') with
          | none => rfl
          | some q => exact absurd (hmono f' q hfin) (by simp [hkill])
      · exact hnone f' hf'
    · intro g pid h
      exact pushDeletionStep_mono env acc f hN g (hmono g pid h)

theorem pushDeletions_noop (env : PushEnv) :
    ∀ (files : List String) (acc : PushState × List RemoteCall),
      (∀ f ∈ files, truthy (get_page_id_from_filename acc.1.idToFilename f) = none) →
      files.foldl (pushDeletionStep env) acc = acc := by
  intro files
  induction files with
  | nil => intro acc _; rfl
  | cons f rest ih =>
    intro acc h
    rw [List.foldl_cons]
    have hstep : pushDeletionStep env acc f = acc := by
      dsimp only [pushDeletionStep]
      simp [h f (List.mem_cons_self f rest)]
    rw [hstep]
    exact ih acc (fun f' hf' => h f' (List.mem_cons_of_mem f hf'))

theorem pushRecord_skip (env : PushEnv) (acc : PushState × List RemoteCall)
    (e : String × Content × String)
    (h : alookup acc.1.cache e.1 = some e.2.2) :
    pushRecord env acc e = acc := by
  dsimp only [pushRecord]
  simp [h]

theorem pushRecord_update_ok (env : PushEnv) (acc : PushState × List RemoteCall)
    (e : String × Content × String) (pid : String)
    (hch : alookup acc.1.cache e.1 ≠ some e.2.2)
    (hres : resolvePageId e.2.1 acc.1.idToFilename e.1 = some pid)
    (htomb : acc.1.deletedPages.contains pid = false)
    (hupd : env.updateOutcome pid e.2.1 = .ok ()) :
    pushRecord env acc e
      = ({ acc.1 with cache := aset acc.1.cache e.1 e.2.2 },
         acc.2 ++ [.update pid e.2.1]) := by
  have htomb' : pid ∉ acc.1.deletedPages := by simpa using htomb
  dsimp only [pushRecord]
  simp [hch, hres, htomb', hupd]

theorem pushRecords_noop (env : PushEnv) :
    ∀ (entries : List (String × Content × String)) (acc : PushState × List RemoteCall),
      (∀ e ∈ entries, alookup acc.1.cache e.1 = some e.2.2) →
      entries.foldl (pushRecord env) acc = acc := by
  intro entries
  induction entries with
  | nil => intro acc _; rfl
  | cons e rest ih =>
    intro acc h
    rw [List.foldl_cons, pushRecord_skip env acc e (h e (List.mem_cons_self e rest))]
    exact ih acc (fun e' he' => h e' (List.mem_cons_of_mem e he'))

theorem mem_keys_iff_alookup {α : Type} (m : List (String × α)) (k : String) :
    k ∈ m.map Prod.fst ↔ alookup m k ≠ none := by
  unfold alookup
  constructor
  · intro hk hnone
    rcases List.mem_map.mp hk with ⟨p, hp, rfl⟩
    rw [Option.map_eq_none'] at hnone
    rw [List.find?_eq_none] at hnone
    exact absurd (by simp) (hnone p hp)
  · intro hne
    cases hf : m.find? (fun p => p.1 = k) with
    | none => rw [hf] at hne; simp at hne
    | some p =>
      have hpk : p.1 = k := by simpa using List.find?_some hf
      exact hpk ▸ List.mem_map_of_mem Prod.fst (List.mem_of_find?_eq_some hf)

/-- Create-free record phase of push: when every changed record resolves
a live remote ID whose update succeeds, the phase touches only the sync
cache — setting every processed record's entry to its enumerated
fingerprint and leaving all other entries alone. -/
theorem pushRecords_fold (env : PushEnv) :
    ∀ (entries : List (String × Content × String)) (acc : PushState × List RemoteCall),
      (entries.map (fun e => e.1)).Nodup →
      (∀ e ∈ entries, alookup acc.1.cache e.1 ≠ some e.2.2 →
        ∃ pid, resolvePageId e.2.1 acc.1.idToFilename e.1 = some pid
          ∧ acc.1.deletedPages.contains pid = false
          ∧ env.updateOutcome pid e.2.1 = .ok ()) →
      (entries.foldl (pushRecord env) acc).1.disk = acc.1.disk
      ∧ (entries.foldl (pushRecord env) acc).1.idToFilename = acc.1.idToFilename
      ∧ (entries.foldl (pushRecord env) acc).1.deletedPages = acc.1.deletedPages
      ∧ (∀ e ∈ entries,
          alookup (entries.foldl (pushRecord env) acc).1.cache e.1 = some e.2.2)
      ∧ (∀ k, k ∉ entries.map (fun e => e.1) →
          alookup (entries.foldl (pushRecord env) acc).1.cache k = alookup acc.1.cache k)
      ∧ (∀ k v, alookup (entries.foldl (pushRecord env) acc).1.cache k = some v →
          alookup acc.1.cache k ≠ none ∨ k ∈ entries.map (fun e => e.1)) := by
  intro entries
  induction entries with
  | nil =>
    intro acc _ _
    refine ⟨rfl, rfl, rfl, by intro e he; simp at he, fun k _ => rfl, ?_⟩
    intro k v h
    left
    rw [List.foldl_nil] at h
    simp [h]
  | cons e rest ih =>
    intro acc hnd hokp
    have hnd' : (rest.map (fun e => e.1)).Nodup := (List.nodup_cons.mp hnd).2
    have hnotin : e.1 ∉ rest.map (fun e => e.1) := (List.nodup_cons.mp hnd).1
    rw [List.foldl_cons]
    by_cases hskip : alookup acc.1.cache e.1 = some e.2.2
    · rw [pushRecord_skip env acc e hskip]
      have := ih acc hnd' (fun e' he' => hokp e' (List.mem_cons_of_mem e he'))
      obtain ⟨h1, h2, h3, h4, h5, h6⟩ := this
      refine ⟨h1, h2, h3, ?_, ?_, ?_⟩
      · intro e' he'
        rcases List.mem_cons.mp he' with rfl | he'
        · rw [h5 e'.1 hnotin]
          exact hskip
        · exact h4 e' he'
      · intro k hk
        exact h5 k (fun hm => hk (List.mem_cons_of_mem _ hm))
      · intro k v h
        rcases h6 k v h with hl | hr
        · exact Or.inl hl
        · exact Or.inr (List.mem_cons_of_mem _ hr)
    · obtain ⟨pid, hres, htomb, hupd⟩ := hokp e (List.mem_cons_self e rest) hskip
      rw [pushRecord_update_ok env acc e pid hskip hres htomb hupd]
      set acc' : PushState × List RemoteCall :=
        ({ acc.1 with cache := aset acc.1.cache e.1 e.2.2 },
         acc.2 ++ [.update pid e.2.1]) with hacc'
      have hokp' : ∀ e' ∈ rest, alookup acc'.1.cache e'.1 ≠ some e'.2.2 →
          ∃ pid, resolvePageId e'.2.1 acc'.1.idToFilename e'.1 = some pid
            ∧ acc'.1.deletedPages.contains pid = false
            ∧ env.updateOutcome pid e'.2.1 = .ok () := by
        intro e' he' hch'
        have hne : e'.1 ≠ e.1 := by
          intro hkeq
          exact hnotin (hkeq ▸ List.mem_map_of_mem (fun e => e.1) he')
        rw [hacc'] at hch'
        simp only at hch'
        rw [alookup_aset_ne acc.1.cache e.1 e'.1 e.2.2 hne] at hch'
        exact hokp e' (List.mem_cons_of_mem e he') hch'
      have := ih acc' hnd' hokp'
      obtain ⟨h1, h2, h3, h4, h5, h6⟩ := this
      refine ⟨h1, h2, h3, ?_, ?_, ?_⟩
      · intro e' he'
        rcases List.mem_cons.mp he' with rfl | he'
        · rw [h5 e'.1 hnotin]
          simp only [hacc']
          exact alookup_aset_self acc.1.cache e'.1 e'.2.2
        · exact h4 e' he'
      · intro k hk
        have hke : k ≠ e.1 := fun hkeq => hk (hkeq ▸ List.mem_cons_self _ _)
        have hkr : k ∉ rest.map (fun e => e.1) :=
          fun hm => hk (List.mem_cons_of_mem _ hm)
        rw [h5 k hkr]
        simp only [hacc']
        exact alookup_aset_ne acc.1.cache e.1 k e.2.2 hke
      · intro k v h
        rcases h6 k v h with hl | hr
        · by_cases hke : k = e.1
          · exact Or.inr (hke ▸ List.mem_cons_self _ _)
          · rw [hacc'] at hl
            simp only at hl
            rw [alookup_aset_ne acc.1.cache e.1 k e.2.2 hke] at hl
            exact Or.inl hl
        · exact Or.inr (List.mem_cons_of_mem _ hr)

/-- C2 amended: running `push()` twice with no local changes in between
yields zero remote calls on the second run **provided the first run
performs no creates and no remote call of it fails** — precisely: the ID
mapping maps distinct remote IDs to distinct filenames, local stems are
distinct, every deletion the first run resolves succeeds remotely, and
every changed record resolves a live (non-tombstoned) remote ID whose
update succeeds.  Without the no-create proviso the claim is false (see
the counterexample): a successful create re-saves the record after its
pre-create fingerprint was cached, so the second run updates it again. -/
theorem C2_amended_idempotence (env : PushEnv) (st : PushState)
    (hstems : ((get_local_content st.disk).map (fun e => e.1)).Nodup)
    (hbidir : (st.idToFilename.map Prod.snd).Nodup)
    (hdel : ∀ f ∈ (st.cache.map Prod.fst).filter
        (fun f => ¬ ((get_local_content st.disk).map (fun e => e.1)).contains f),
      ∀ pid, truthy (get_page_id_from_filename st.idToFilename f) = some pid →
        env.deleteOutcome pid = .ok ())
    (hupd : ∀ e ∈ get_local_content st.disk,
      alookup st.cache e.1 ≠ some e.2.2 →
      ∃ pid, resolvePageId e.2.1
          (pushDeletions env ((get_local_content st.disk).map (fun e => e.1)) st).1.idToFilename
          e.1 = some pid
        ∧ (pushDeletions env
            ((get_local_content st.disk).map (fun e => e.1)) st).1.deletedPages.contains
            pid = false
        ∧ env.updateOutcome pid e.2.1 = .ok ()) :
    (push env (push env st).1).2 = [] := by
  have hAeq : pushDeletions env ((get_local_content st.disk).map (fun e => e.1)) st
      = ((st.cache.map Prod.fst).filter
          (fun f => ¬ ((get_local_content st.disk).map (fun e => e.1)).contains f)).foldl
          (pushDeletionStep env) (st, []) := rfl
  obtain ⟨hAcache, hAdisk, hAnodup, hAnone, hAmono⟩ :=
    pushDeletions_fold env
      ((st.cache.map Prod.fst).filter
        (fun f => ¬ ((get_local_content st.disk).map (fun e => e.1)).contains f))
      (st, []) hbidir hdel
  rw [← hAeq] at hAcache hAdisk hAnodup hAnone hAmono
  have hupd2 : ∀ e ∈ get_local_content st.disk,
      alookup (pushDeletions env
        ((get_local_content st.disk).map (fun e => e.1)) st).1.cache e.1 ≠ some e.2.2 →
      ∃ pid, resolvePageId e.2.1
          (pushDeletions env ((get_local_content st.disk).map (fun e => e.1)) st).1.idToFilename
          e.1 = some pid
        ∧ (pushDeletions env
            ((get_local_content st.disk).map (fun e => e.1)) st).1.deletedPages.contains
            pid = false
        ∧ env.updateOutcome pid e.2.1 = .ok () := by
    intro e he hch
    exact hupd e he (by rwa [hAcache] at hch)
  obtain ⟨hRdisk, hRidm, hRdel, hRcache, hRother, hRkeys⟩ :=
    pushRecords_fold env (get_local_content st.disk)
      (pushDeletions env ((get_local_content st.disk).map (fun e => e.1)) st)
      hstems hupd2
  have hpush1 : push env st
      = (get_local_content st.disk).foldl (pushRecord env)
          (pushDeletions env ((get_local_content st.disk).map (fun e => e.1)) st) := rfl
  have hdisk1 : (push env st).1.disk = st.disk := by
    rw [hpush1, hRdisk]
    exact hAdisk
  have hidm1 : (push env st).1.idToFilename
      = (pushDeletions env
          ((get_local_content st.disk).map (fun e => e.1)) st).1.idToFilename := by
    rw [hpush1]
    exact hRidm
  have hpush2 : push env (push env st).1
      = (get_local_content (push env st).1.disk).foldl (pushRecord env)
          (pushDeletions env
            ((get_local_content (push env st).1.disk).map (fun e => e.1))
            (push env st).1) := rfl
  have hL1 : get_local_content (push env st).1.disk = get_local_content st.disk := by
    rw [hdisk1]
  rw [hpush2, hL1]
  have hnone2 : ∀ f ∈ ((push env st).1.cache.map Prod.fst).filter
      (fun f => ¬ ((get_local_content st.disk).map (fun e => e.1)).contains f),
      truthy (get_page_id_from_filename (push env st).1.idToFilename f) = none := by
    intro f hf
    have hmemk : f ∈ (push env st).1.cache.map Prod.fst := (List.mem_filter.mp hf).1
    have hnotstem : f ∉ (get_local_content st.disk).map (fun e => e.1) := by
      have := (List.mem_filter.mp hf).2
      simpa using this
    have hlook : alookup (push env st).1.cache f ≠ none :=
      (mem_keys_iff_alookup _ f).mp hmemk
    cases hlv : alookup (push env st).1.cache f with
    | none => exact absurd hlv hlook
    | some v =>
      rw [hpush1] at hlv
      rcases hRkeys f v hlv with hl | hr
      · rw [hAcache] at hl
        have hmemk0 : f ∈ st.cache.map Prod.fst := (mem_keys_iff_alookup _ f).mpr hl
        have hfDF : f ∈ (st.cache.map Prod.fst).filter
            (fun f => ¬ ((get_local_content st.disk).map (fun e => e.1)).contains f) :=
          List.mem_filter.mpr ⟨hmemk0, by simpa using hnotstem⟩
        rw [hidm1]
        exact hAnone f hfDF
      · exact absurd hr hnotstem
  have hnoop2 : pushDeletions env ((get_local_content st.disk).map (fun e => e.1))
      (push env st).1 = ((push env st).1, []) :=
    pushDeletions_noop env _ ((push env st).1, []) hnone2
  rw [hnoop2]
  have hskip2 : ∀ e ∈ get_local_content st.disk,
      alookup (push env st).1.cache e.1 = some e.2.2 := by
    intro e he
    rw [hpush1]
    exact hRcache e he
  rw [pushRecords_noop env (get_local_content st.disk) ((push env st).1, []) hskip2]

/-- C2 amended witness: a first push that exercises both provisos —
it deletes the remotely mapped stale record (page 9) and updates the
changed record (page 1), both succeeding, with no creates — after which
the second push makes zero remote calls. -/
theorem C2_amended_witness :
    (push exCreateEnv exSteadyDelState).2 = [.delete "9", .update "1" exRecA]
  ∧ (push exCreateEnv (push exCreateEnv exSteadyDelState).1).2 = [] := by
  refine ⟨by decide, ?_⟩
  refine C2_amended_idempotence exCreateEnv exSteadyDelState (by decide) (by decide) ?_ ?_
  · intro f hf pid h
    rfl
  · intro e he hch
    rw [show get_local_content exSteadyDelState.disk
        = [("a", exRecA, "ba")] from rfl] at he
    have he' := List.mem_singleton.mp he
    subst he'
    exact ⟨"1", rfl, by decide, rfl⟩
